import Mathlib

/-!
# Verification of the asiaq VPC orchestration core

A shallow embedding, in Lean 4, of the address-space allocator, the
meta-network allocation loop, the peering reconciliation entry points and the
resilient remote-call helpers of `disco_aws_automation` (files
`disco_vpc.py` and `resource_helper.py`), together with theorems settling the
specification's claims about them.

IPv4 CIDR blocks are modelled as a base address (a natural number below
`2^32`) plus a prefix length; `netaddr`'s `IPNetwork`/`IPSet` operations used
by the source reduce to interval arithmetic on the masked address range.
Remote AWS state (VPCs, peering connections, NAT gateways, DHCP option sets)
is modelled explicitly, and the side-effecting orchestration methods are
embedded as functions from that state to the list of remote calls they issue,
in order.  Randomness (`random.choice`, `randint`) is modelled by passing the
drawn value (or choice index) as an explicit argument.  Python exceptions are
modelled with `Except`/`Option` results.
-/

namespace Asiaq

/-! ## CIDR arithmetic (netaddr `IPNetwork` / `IPSet` on IPv4) -/

/-- An IPv4 CIDR block: a base address and a prefix length.
`netaddr.IPNetwork` keeps the host bits of the written address around but all
set operations used by the source (`subnet`, `IPSet`, `isdisjoint`) work on
the masked network range, which `cstart`/`csize` below compute. -/
structure Cidr where
  base : Nat
  plen : Nat
  deriving DecidableEq, Repr

/-- Number of addresses covered by a CIDR block (`2 ^ (32 - plen)`). -/
def csize (c : Cidr) : Nat := 2 ^ (32 - c.plen)

/-- First address of the masked network range of a CIDR block. -/
def cstart (c : Cidr) : Nat := c.base / csize c * csize c

/-- `IPSet(a).isdisjoint(IPSet(b))` is false exactly when the two masked
address ranges intersect. -/
def overlapb (a b : Cidr) : Bool :=
  decide (cstart a < cstart b + csize b ∧ cstart b < cstart a + csize a)

/-- Full containment of one masked address range in another. -/
def containedIn (a p : Cidr) : Prop :=
  cstart p ≤ cstart a ∧ cstart a + csize a ≤ cstart p + csize p

instance (a p : Cidr) : Decidable (containedIn a p) := by
  unfold containedIn; infer_instance

/-- `IPNetwork(parent).subnet(s)`: the list of child blocks of prefix length
`s` inside `parent`, in address order.  `netaddr` raises `ValueError` when
`s` is shorter than the parent's prefix or longer than 32; those invalid
calls are mapped to `[]` (callers below only reach the valid range). -/
def subnetsOf (parent : Cidr) (s : Nat) : List Cidr :=
  if parent.plen ≤ s ∧ s ≤ 32 then
    (List.range (2 ^ (s - parent.plen))).map
      (fun i => ⟨cstart parent + i * 2 ^ (32 - s), s⟩)
  else []

/-! ## `DiscoVPC.get_random_free_subnet` (disco_vpc.py lines 1011-1032) -/

/-- The `available_subnets` list computed by `get_random_free_subnet`: the
child blocks of size `networkSize` inside `networkCidr` that are disjoint
from every occupied block. -/
def availableSubnets (networkCidr : Cidr) (networkSize : Nat)
    (occupied : List Cidr) : List Cidr :=
  (subnetsOf networkCidr networkSize).filter
    (fun subnet => occupied.all (fun occ => !overlapb subnet occ))

/-- `DiscoVPC.get_random_free_subnet(network_cidr, network_size,
occupied_network_cidrs)`.  `random.choice` is modelled by the extra argument
`k`: the chosen element is `available_subnets[k % len(available_subnets)]`,
so every possible draw corresponds to some `k`. -/
def get_random_free_subnet (networkCidr : Cidr) (networkSize : Nat)
    (occupied : List Cidr) (k : Nat) : Option Cidr :=
  let available := availableSubnets networkCidr networkSize occupied
  if h : available = [] then none
  else some (available.get ⟨k % available.length, Nat.mod_lt _ (List.length_pos.mpr h)⟩)

/-! Basic lemmas about the enumeration. -/

theorem csize_pos (c : Cidr) : 0 < csize c := Nat.pos_pow_of_pos _ (by decide)

theorem csize_dvd_cstart (c : Cidr) : csize c ∣ cstart c :=
  Dvd.intro_left _ rfl

theorem mem_subnetsOf {parent : Cidr} {s : Nat} {c : Cidr}
    (h : c ∈ subnetsOf parent s) :
    parent.plen ≤ s ∧ s ≤ 32 ∧
      ∃ i, i < 2 ^ (s - parent.plen) ∧ c = ⟨cstart parent + i * 2 ^ (32 - s), s⟩ := by
  by_cases hv : parent.plen ≤ s ∧ s ≤ 32
  · rw [subnetsOf, if_pos hv] at h
    simp only [List.mem_map, List.mem_range] at h
    obtain ⟨i, hi, hc⟩ := h
    exact ⟨hv.1, hv.2, i, hi, hc.symm⟩
  · rw [subnetsOf, if_neg hv] at h
    simp at h

theorem plen_of_mem_subnetsOf {parent : Cidr} {s : Nat} {c : Cidr}
    (h : c ∈ subnetsOf parent s) : c.plen = s := by
  obtain ⟨_, _, i, _, hc⟩ := mem_subnetsOf h
  rw [hc]

/-- A child produced by the enumeration is already aligned: its masked start
is its base address. -/
theorem cstart_of_mem_subnetsOf {parent : Cidr} {s : Nat} {c : Cidr}
    (h : c ∈ subnetsOf parent s) : cstart c = c.base := by
  obtain ⟨h1, h2, i, _, hc⟩ := mem_subnetsOf h
  subst hc
  show (cstart parent + i * 2 ^ (32 - s)) / 2 ^ (32 - s) * 2 ^ (32 - s) = _
  have hdvd : (2 : Nat) ^ (32 - s) ∣ cstart parent + i * 2 ^ (32 - s) := by
    refine Nat.dvd_add ?_ (Dvd.intro_left _ rfl)
    have : (2 : Nat) ^ (32 - s) ∣ 2 ^ (32 - parent.plen) := by
      exact pow_dvd_pow 2 (by omega)
    exact dvd_trans this (csize_dvd_cstart parent)
  exact Nat.div_mul_cancel hdvd

theorem containedIn_of_mem_subnetsOf {parent : Cidr} {s : Nat} {c : Cidr}
    (h : c ∈ subnetsOf parent s) : containedIn c parent := by
  obtain ⟨h1, h2, i, hi, hc⟩ := mem_subnetsOf h
  have hstart : cstart c = cstart parent + i * 2 ^ (32 - s) := by
    rw [cstart_of_mem_subnetsOf h, hc]
  have hsize : csize c = 2 ^ (32 - s) := by rw [hc]; rfl
  constructor
  · rw [hstart]; exact Nat.le_add_right _ _
  · rw [hstart, hsize]
    have hsplit : 32 - parent.plen = (s - parent.plen) + (32 - s) := by omega
    have : (i + 1) * 2 ^ (32 - s) ≤ 2 ^ (s - parent.plen) * 2 ^ (32 - s) :=
      Nat.mul_le_mul_right _ hi
    calc cstart parent + i * 2 ^ (32 - s) + 2 ^ (32 - s)
        = cstart parent + (i + 1) * 2 ^ (32 - s) := by ring
      _ ≤ cstart parent + 2 ^ (s - parent.plen) * 2 ^ (32 - s) := by omega
      _ = cstart parent + csize parent := by
          show _ = cstart parent + 2 ^ (32 - parent.plen)
          rw [hsplit, pow_add]

theorem mem_availableSubnets {networkCidr : Cidr} {networkSize : Nat}
    {occupied : List Cidr} {c : Cidr}
    (h : c ∈ availableSubnets networkCidr networkSize occupied) :
    c ∈ subnetsOf networkCidr networkSize ∧ ∀ o ∈ occupied, overlapb c o = false := by
  unfold availableSubnets at h
  have h' := List.mem_filter.mp h
  refine ⟨h'.1, fun o ho => ?_⟩
  have := List.all_eq_true.mp h'.2 o ho
  simpa using this

/-- If the result is `some c` then `c` came from the available list. -/
theorem get_random_free_subnet_mem {networkCidr : Cidr} {networkSize : Nat}
    {occupied : List Cidr} {k : Nat} {c : Cidr}
    (h : get_random_free_subnet networkCidr networkSize occupied k = some c) :
    c ∈ availableSubnets networkCidr networkSize occupied := by
  unfold get_random_free_subnet at h
  by_cases hav : availableSubnets networkCidr networkSize occupied = []
  · simp [hav] at h
  · simp only [hav, dite_false] at h
    have := Option.some.inj h
    rw [← this]
    exact List.get_mem _ _ _

theorem get_random_free_subnet_eq_none_iff (networkCidr : Cidr)
    (networkSize : Nat) (occupied : List Cidr) (k : Nat) :
    get_random_free_subnet networkCidr networkSize occupied k = none ↔
      availableSubnets networkCidr networkSize occupied = [] := by
  unfold get_random_free_subnet
  by_cases hav : availableSubnets networkCidr networkSize occupied = []
  · simp [hav]
  · simp [hav]

/-- C1: for every parent CIDR block, requested child prefix length (valid for
the address family, i.e. between the parent's prefix length and 32, outside
of which `netaddr` raises) and list of occupied CIDR blocks,
`get_random_free_subnet` returns a child block of exactly the requested
prefix length, fully contained in the parent block and disjoint from every
occupied block; and it returns none if and only if every possible child
block of that size within the parent intersects at least one occupied
block. -/
theorem get_random_free_subnet_correct (parent : Cidr) (s : Nat)
    (occupied : List Cidr) (k : Nat) (_hlo : parent.plen ≤ s) (_hhi : s ≤ 32) :
    (∀ c, get_random_free_subnet parent s occupied k = some c →
        c.plen = s ∧ containedIn c parent ∧ ∀ o ∈ occupied, overlapb c o = false) ∧
    (get_random_free_subnet parent s occupied k = none ↔
        ∀ c ∈ subnetsOf parent s, ∃ o ∈ occupied, overlapb c o = true) := by
  constructor
  · intro c h
    have hm := get_random_free_subnet_mem h
    obtain ⟨h1, h2⟩ := mem_availableSubnets hm
    exact ⟨plen_of_mem_subnetsOf h1, containedIn_of_mem_subnetsOf h1, h2⟩
  · rw [get_random_free_subnet_eq_none_iff]
    unfold availableSubnets
    rw [List.filter_eq_nil_iff]
    constructor
    · intro h c hc
      have := h c hc
      simp only [List.all_eq_true, Bool.not_eq_true] at this
      push_neg at this
      obtain ⟨o, ho, hov⟩ := this
      exact ⟨o, ho, by simpa using hov⟩
    · intro h c hc
      obtain ⟨o, ho, hov⟩ := h c hc
      simp only [List.all_eq_true, Bool.not_eq_true]
      push_neg
      exact ⟨o, ho, by simp [hov]⟩

/-- Witness for C1 at a concrete input: parent `0.0.0.0/24`, requested /26
children, first half of the parent occupied. -/
theorem get_random_free_subnet_correct_witness :
    (∀ c, get_random_free_subnet ⟨0, 24⟩ 26 [⟨0, 25⟩] 5 = some c →
        c.plen = 26 ∧ containedIn c ⟨0, 24⟩ ∧
          ∀ o ∈ [Cidr.mk 0 25], overlapb c o = false) ∧
    (get_random_free_subnet ⟨0, 24⟩ 26 [⟨0, 25⟩] 5 = none ↔
        ∀ c ∈ subnetsOf ⟨0, 24⟩ 26, ∃ o ∈ [Cidr.mk 0 25], overlapb c o = true) :=
  get_random_free_subnet_correct ⟨0, 24⟩ 26 [⟨0, 25⟩] 5 (by decide) (by decide)

/-! ## `DiscoVPC._create_new_meta_networks` (disco_vpc.py lines 196-234) -/

/-- A configured `{network}_cidr` value: either the literal string `"auto"`
or an explicit CIDR. -/
inductive CidrSetting where
  | auto
  | cidr (c : Cidr)
  deriving DecidableEq, Repr

/-- Modelled from the spec: `calc_subnet_offset` lives in
`disco_aws_automation/network_helper.py`, which is not among the provided
sources; per the spec (§4.2 `computeChildPrefixOffset`) it returns the
smallest number of extra network bits such that `2 ^ bits >= childCount`. -/
def calc_subnet_offset (childCount : Nat) : Nat :=
  (((List.range 33).find? (fun b => childCount ≤ 2 ^ b)).getD 33)

/-- The allocation loop of `_create_new_meta_networks`: walk the configured
networks in order; an explicit CIDR is used as-is, an `"auto"` entry is
allocated by `get_random_free_subnet` avoiding `used`; either way the chosen
block is appended to `used`.  `ks` supplies the `random.choice` draws, one
per `"auto"` entry. -/
def allocateNetworks (vpc : Cidr) (size : Nat) :
    List (String × CidrSetting) → List Cidr → List Nat →
      Except String (List (String × Cidr))
  | [], _, _ => .ok []
  | (name, .cidr c) :: rest, used, ks =>
      match allocateNetworks vpc size rest (used ++ [c]) ks with
      | .error e => .error e
      | .ok ms => .ok ((name, c) :: ms)
  | (name, .auto) :: rest, used, ks =>
      match get_random_free_subnet vpc size used (ks.headD 0) with
      | none => .error ("Cannot create metanetwork " ++ name ++ ". No subnets available")
      | some c =>
          match allocateNetworks vpc size rest (used ++ [c]) ks.tail with
          | .error e => .error e
          | .ok ms => .ok ((name, c) :: ms)

/-- `DiscoVPC._create_new_meta_networks`: reads the configured networks (as
the already-looked-up list `nets` of name/cidr-setting pairs, in dict
iteration order), computes the meta-network size from the VPC block and the
network count, seeds the used-CIDR list with every explicitly configured
CIDR, and runs the allocation loop. -/
def create_new_meta_networks (vpc : Cidr) (nets : List (String × CidrSetting))
    (ks : List Nat) : Except String (List (String × Cidr)) :=
  if nets.length < 1 then .error "No Metanetworks configured for VPC"
  else
    let metaNetworkSize := vpc.plen + calc_subnet_offset nets.length
    if metaNetworkSize > 32 then .error "Unable to create metanetworks in VPC"
    else
      allocateNetworks vpc metaNetworkSize nets
        (nets.filterMap (fun p => match p.2 with | .auto => none | .cidr c => some c))
        ks

theorem overlapb_comm (a b : Cidr) : overlapb a b = overlapb b a := by
  unfold overlapb
  rw [decide_eq_decide]
  exact and_comm

/-- The allocator result is disjoint from everything in `used` and contained
in the VPC block. -/
theorem get_random_free_subnet_some {vpc : Cidr} {size : Nat} {used : List Cidr}
    {k : Nat} {c : Cidr} (h : get_random_free_subnet vpc size used k = some c) :
    containedIn c vpc ∧ ∀ u ∈ used, overlapb c u = false := by
  obtain ⟨h1, h2⟩ := mem_availableSubnets (get_random_free_subnet_mem h)
  exact ⟨containedIn_of_mem_subnetsOf h1, h2⟩

/-- Invariant of the allocation loop: provided every explicitly configured
CIDR of the remaining networks is already in `used`, every `"auto"` block the
loop picks is contained in the VPC block and disjoint from `used` and from
every other sibling block. -/
theorem allocateNetworks_invariant (vpc : Cidr) (size : Nat)
    (nets : List (String × CidrSetting)) :
    ∀ (used : List Cidr) (ks : List Nat) (m : List (String × Cidr)),
      allocateNetworks vpc size nets used ks = Except.ok m →
      (∀ pr ∈ nets, ∀ cb, pr.2 = CidrSetting.cidr cb → cb ∈ used) →
      (∀ pr ∈ nets.zip m,
          (pr.1.2 = CidrSetting.auto →
            containedIn pr.2.2 vpc ∧ ∀ u ∈ used, overlapb pr.2.2 u = false) ∧
          ∀ cb, pr.1.2 = CidrSetting.cidr cb → pr.2.2 = cb) ∧
      (nets.zip m).Pairwise
          (fun a b => (a.1.2 = CidrSetting.auto ∨ b.1.2 = CidrSetting.auto) →
            overlapb a.2.2 b.2.2 = false) := by
  induction nets with
  | nil =>
      intro used ks m h _hexp
      simp only [allocateNetworks] at h
      cases h
      simp
  | cons hd rest ih =>
      obtain ⟨name, st⟩ := hd
      intro used ks m h hexp
      cases st with
      | cidr c =>
          simp only [allocateNetworks] at h
          cases heq : allocateNetworks vpc size rest (used ++ [c]) ks with
          | error e => rw [heq] at h; cases h
          | ok ms =>
              rw [heq] at h
              cases h
              have hexp' : ∀ pr ∈ rest, ∀ cb, pr.2 = CidrSetting.cidr cb →
                  cb ∈ used ++ [c] := by
                intro pr hpr cb hcb
                exact List.mem_append_left _ (hexp pr (List.mem_cons_of_mem _ hpr) cb hcb)
              obtain ⟨iha, ihb⟩ := ih (used ++ [c]) ks ms heq hexp'
              rw [List.zip_cons_cons]
              constructor
              · intro pr hpr
                rcases List.mem_cons.mp hpr with hpr | hpr
                · subst hpr
                  refine ⟨fun hauto => (by cases hauto), fun cb hcb => (by cases hcb; rfl)⟩
                · have hthis := iha pr hpr
                  refine ⟨fun hauto => ?_, hthis.2⟩
                  obtain ⟨hc1, hc2⟩ := hthis.1 hauto
                  exact ⟨hc1, fun u hu => hc2 u (List.mem_append_left _ hu)⟩
              · rw [List.pairwise_cons]
                refine ⟨?_, ihb⟩
                intro b hb hor
                rcases hor with hor | hor
                · cases hor
                · have hdisj := ((iha b hb).1 hor).2 c
                    (List.mem_append_right _ (List.mem_singleton_self c))
                  rw [overlapb_comm]
                  exact hdisj
      | auto =>
          simp only [allocateNetworks] at h
          cases hr : get_random_free_subnet vpc size used (ks.headD 0) with
          | none => rw [hr] at h; cases h
          | some c =>
              simp only [hr] at h
              cases heq : allocateNetworks vpc size rest (used ++ [c]) ks.tail with
              | error e => rw [heq] at h; cases h
              | ok ms =>
                  rw [heq] at h
                  cases h
                  obtain ⟨hcont, hdisj⟩ := get_random_free_subnet_some hr
                  have hexp' : ∀ pr ∈ rest, ∀ cb, pr.2 = CidrSetting.cidr cb →
                      cb ∈ used ++ [c] := by
                    intro pr hpr cb hcb
                    exact List.mem_append_left _ (hexp pr (List.mem_cons_of_mem _ hpr) cb hcb)
                  obtain ⟨iha, ihb⟩ := ih (used ++ [c]) ks.tail ms heq hexp'
                  rw [List.zip_cons_cons]
                  constructor
                  · intro pr hpr
                    rcases List.mem_cons.mp hpr with hpr | hpr
                    · subst hpr
                      exact ⟨fun _ => ⟨hcont, hdisj⟩, fun cb hcb => by cases hcb⟩
                    · have hthis := iha pr hpr
                      refine ⟨fun hauto => ?_, hthis.2⟩
                      obtain ⟨hc1, hc2⟩ := hthis.1 hauto
                      exact ⟨hc1, fun u hu => hc2 u (List.mem_append_left _ hu)⟩
                  · rw [List.pairwise_cons]
                    refine ⟨?_, ihb⟩
                    intro b hb _hor
                    cases hb12 : b.1.2 with
                    | auto =>
                        have hbd := ((iha b hb).1 hb12).2 c
                          (List.mem_append_right _ (List.mem_singleton_self c))
                        rw [overlapb_comm]
                        exact hbd
                    | cidr cb =>
                        have hb2 := (iha b hb).2 cb hb12
                        have hb' : (b.1, b.2) ∈ rest.zip ms := by simpa using hb
                        have hb1mem : b.1 ∈ rest := (List.of_mem_zip hb').1
                        have hcbu : cb ∈ used :=
                          hexp b.1 (List.mem_cons_of_mem _ hb1mem) cb hb12
                        rw [hb2]
                        exact hdisj cb hcbu

/-- C2, amended: when `_create_new_meta_networks` succeeds, every
`"auto"`-allocated meta-network block is fully contained in the environment's
CIDR block, and any two sibling blocks of which at least one was
`"auto"`-allocated are non-overlapping.  (Explicitly configured sibling
blocks are used as-is, with no overlap or containment check between them.) -/
theorem create_new_meta_networks_auto_disjoint (vpc : Cidr)
    (nets : List (String × CidrSetting)) (ks : List Nat)
    (m : List (String × Cidr))
    (h : create_new_meta_networks vpc nets ks = Except.ok m) :
    (∀ pr ∈ nets.zip m, pr.1.2 = CidrSetting.auto → containedIn pr.2.2 vpc) ∧
    (nets.zip m).Pairwise
      (fun a b => (a.1.2 = CidrSetting.auto ∨ b.1.2 = CidrSetting.auto) →
        overlapb a.2.2 b.2.2 = false) := by
  unfold create_new_meta_networks at h
  by_cases h1 : nets.length < 1
  · rw [if_pos h1] at h; cases h
  · rw [if_neg h1] at h
    by_cases h2 : vpc.plen + calc_subnet_offset nets.length > 32
    · rw [if_pos h2] at h; cases h
    · rw [if_neg h2] at h
      have hexp0 : ∀ pr ∈ nets, ∀ cb, pr.2 = CidrSetting.cidr cb →
          cb ∈ nets.filterMap
            (fun p => match p.2 with
              | CidrSetting.auto => none
              | CidrSetting.cidr c => some c) := by
        intro pr hpr cb hcb
        exact List.mem_filterMap.mpr ⟨pr, hpr, by rw [hcb]⟩
      obtain ⟨iha, ihb⟩ := allocateNetworks_invariant vpc _ nets _ ks m h hexp0
      exact ⟨fun pr hpr hauto => ((iha pr hpr).1 hauto).1, ihb⟩

/-- Counterexample to C2 as stated: in the environment block `0.0.0.0/16`,
two meta-networks both explicitly configured as `0.0.0.0/18` are accepted
unchecked, so the created sibling blocks overlap (here, they are equal). -/
theorem create_new_meta_networks_explicit_overlap :
    create_new_meta_networks ⟨0, 16⟩
        [("a", CidrSetting.cidr ⟨0, 18⟩), ("b", CidrSetting.cidr ⟨0, 18⟩)] [] =
      Except.ok [("a", ⟨0, 18⟩), ("b", ⟨0, 18⟩)] ∧
    overlapb ⟨0, 18⟩ ⟨0, 18⟩ = true := by
  constructor
  · rfl
  · decide

/-- Witness for the amended C2 at a concrete input mixing `"auto"` and an
explicit CIDR: in `0.0.0.0/16`, network `a` is `"auto"` (allocated
`0.0.128.0/17`) and network `b` is explicitly `0.0.0.0/18`. -/
theorem create_new_meta_networks_auto_disjoint_witness :
    (∀ pr ∈ ([("a", CidrSetting.auto), ("b", CidrSetting.cidr ⟨0, 18⟩)].zip
        [("a", Cidr.mk 32768 17), ("b", Cidr.mk 0 18)]),
      pr.1.2 = CidrSetting.auto → containedIn pr.2.2 ⟨0, 16⟩) ∧
    (([("a", CidrSetting.auto), ("b", CidrSetting.cidr ⟨0, 18⟩)].zip
        [("a", Cidr.mk 32768 17), ("b", Cidr.mk 0 18)]).Pairwise
      (fun a b => (a.1.2 = CidrSetting.auto ∨ b.1.2 = CidrSetting.auto) →
        overlapb a.2.2 b.2.2 = false)) :=
  create_new_meta_networks_auto_disjoint ⟨0, 16⟩
    [("a", CidrSetting.auto), ("b", CidrSetting.cidr ⟨0, 18⟩)] [0]
    [("a", ⟨32768, 17⟩), ("b", ⟨0, 18⟩)] (by rfl)

/-! ## `DiscoVPC.create_peering_connections` (disco_vpc.py lines 917-947)

The loop body is embedded at Python/boto3 semantics, because as written it
cannot perform the lookup/create/accept logic its structure suggests:
`client` is a boto3 client, whose describe calls return response *dicts*;
the `DiscoVPC` objects in `vpc_map` hold the raw `describe_vpcs` dict in
`.vpc`.  Consequently, in source order:

* line 924, `vpc_ids = [vpc.vpc.id for vpc in vpc_map.values()]` — attribute
  access `.id` on a dict raises `AttributeError` at the first entry (the
  rest of the file reads the same value as `vpc['VpcId']`);
* lines 926-930 — reached only with an empty `vpc_map`: building the filter
  values subscripts `vpc_ids[0]`/`vpc_ids[1]`, raising `IndexError`;
* lines 931-937 — the second describe passes the unknown keyword `filters=`
  (the valid one, used by the first describe and by `list_peerings`, is
  `Filters=`), which botocore rejects with `ParamValidationError` before
  issuing any call;
* line 925/931 — the two describe results, response dicts, are summed with
  `+`, a `TypeError` on dicts, and the `['VpcPeeringConnections']`
  subscripts are missing;
* lines 939-946 — `if not existing_peerings:` tests a response dict, which
  is always truthy, and `create_vpc_peering_connection(*vpc_ids)` /
  `accept_vpc_peering_connection(id)` pass positional arguments boto3
  client methods reject; `existing_peerings[0].id` indexes a dict.

Execution stops at the first raised exception, so the create/accept/reuse
code can never run; the embedding returns the remote calls actually issued
before the raise together with the propagating exception. -/

/-- A VPC peering connection as returned by the remote describe call (the
state `create_peering_connections` would have consulted). -/
structure PeeringConn where
  requester : String
  accepter : String
  status : String
  pcxId : String
  deriving DecidableEq, Repr

/-- The exceptions the body of `create_peering_connections` raises at the
Python/boto3 level. -/
inductive PyErr where
  | attributeError (msg : String)
  | indexError (msg : String)
  | paramValidationError (msg : String)
  | typeError (msg : String)
  deriving DecidableEq, Repr

/-- The `.vpc` attribute of a `DiscoVPC` in a resolved `vpc_map`:
`parse_peering_connection_line` constructs those objects from the raw
`describe_vpcs` response, so it is a plain boto3 dict holding the VPC id
under the key `VpcId`. -/
structure VpcDict where
  vpcId : String
  deriving DecidableEq, Repr

/-- Python attribute access `d.id` on a plain dict: dicts expose no `id`
attribute, so it raises `AttributeError`. -/
def dictAttrId (_d : VpcDict) : Except PyErr String :=
  .error (.attributeError "dict object has no attribute id")

/-- Line 924, `[vpc.vpc.id for vpc in vpc_map.values()]`: the comprehension
evaluates left to right and propagates the first exception. -/
def vpcIdsOf : List (String × VpcDict) → Except PyErr (List String)
  | [] => .ok []
  | p :: rest =>
      match dictAttrId p.2 with
      | .error e => .error e
      | .ok i =>
          match vpcIdsOf rest with
          | .error e => .error e
          | .ok is => .ok (i :: is)

/-- The remote calls a loop iteration of `create_peering_connections` could
issue. -/
inductive PeeringCall where
  | describeConns (accepterId requesterId : String)
  | createConn (v0 v1 : String)
  | acceptConn (pcxId : String)
  | createRoutes (pcxId : String)
  deriving DecidableEq, Repr

/-- Outcome of one loop iteration: the remote calls actually issued, in
order, and the exception that propagates, if any. -/
structure IterResult where
  calls : List PeeringCall
  raised : Option PyErr
  deriving DecidableEq, Repr

/-- One iteration of `DiscoVPC.create_peering_connections` for a resolved
config entry, at Python semantics (see the section comment): line 924
raises `AttributeError` whenever `vpc_map` is nonempty; with an empty
`vpc_map` the `vpc_ids[0]` subscript of line 928 raises `IndexError` while
building the first describe's arguments; in the (dead) case that both ids
were available, the first describe would be issued with the valid `Filters=`
keyword and the second call would raise `ParamValidationError` on its
unknown `filters=` keyword before reaching the remote API. -/
def create_peering_connections_iter (vpcMap : List (String × VpcDict))
    (_conns : List PeeringConn) : IterResult :=
  match vpcIdsOf vpcMap with
  | .error e => { calls := [], raised := some e }
  | .ok vpcIds =>
      -- the `vpc_ids[0]`/`vpc_ids[1]` subscripts succeed exactly when the
      -- list has at least two elements
      match vpcIds with
      | v0 :: v1 :: _ =>
          { calls := [.describeConns v0 v1],
            raised := some (.paramValidationError "Unknown parameter in input: filters") }
      | _ => { calls := [], raised := some (.indexError "list index out of range") }

/-- C3 (code bug): the behaviour the claim describes is unreachable in the
source.  At the failing input — a resolved config entry pairing two live
VPCs, whatever the state of the live connection list — the loop body raises
`AttributeError` at `vpc.vpc.id` (line 924) before issuing a single remote
call; and for every `vpc_map` whatsoever the iteration raises before
reaching the create/accept/reuse code, so no peering connection is ever
created, accepted or given routes. -/
theorem create_peering_connections_crashes (vpcMap : List (String × VpcDict))
    (conns conns2 : List PeeringConn) :
    create_peering_connections_iter
        [("mock-vpc-1", ⟨"vpc-1"⟩), ("mock-vpc-2", ⟨"vpc-2"⟩)] conns =
      { calls := [],
        raised := some (PyErr.attributeError "dict object has no attribute id") } ∧
    (create_peering_connections_iter vpcMap conns2).raised.isSome = true ∧
    (∀ c ∈ (create_peering_connections_iter vpcMap conns2).calls,
      (∀ v0 v1, c ≠ PeeringCall.createConn v0 v1) ∧
      (∀ pcx, c ≠ PeeringCall.acceptConn pcx) ∧
      (∀ pcx, c ≠ PeeringCall.createRoutes pcx)) := by
  refine ⟨rfl, ?_, ?_⟩
  · unfold create_peering_connections_iter
    cases vpcIdsOf vpcMap with
    | error e => rfl
    | ok vpcIds => rcases vpcIds with _ | ⟨v0, _ | ⟨v1, rest⟩⟩ <;> rfl
  · unfold create_peering_connections_iter
    cases vpcIdsOf vpcMap with
    | error e => intro c hc; cases hc
    | ok vpcIds =>
        rcases vpcIds with _ | ⟨v0, _ | ⟨v1, rest⟩⟩
        · intro c hc; cases hc
        · intro c hc; cases hc
        · intro c hc
          have hc2 : c ∈ [PeeringCall.describeConns v0 v1] := hc
          rw [List.mem_singleton] at hc2
          subst hc2
          exact ⟨fun a b h => (by cases h), fun p h => (by cases h),
            fun p h => (by cases h)⟩


/-! ## `DiscoVPC.destroy` (disco_vpc.py lines 651-670), `_destroy_nat_gateways`
(712-723), `_destroy_routes` (768-778) and `_destroy_vpc` (780-797) -/

/-- In a concatenation where the left part is `Q`-free and the right part is
`P`-free, any `P` element comes strictly before any `Q` element. -/
theorem ordered_of_append {α : Type} {P Q : α → Prop} {xs ys : List α}
    (hP : ∀ a ∈ ys, ¬ P a) (hQ : ∀ a ∈ xs, ¬ Q a)
    {i j : Nat} {a b : α} (ha : (xs ++ ys)[i]? = some a)
    (hb : (xs ++ ys)[j]? = some b) (hPa : P a) (hQb : Q b) : i < j := by
  rcases Nat.lt_or_ge i xs.length with hix | hix
  · rcases Nat.lt_or_ge j xs.length with hjx | hjx
    · exfalso
      rw [List.getElem?_append_left hjx] at hb
      exact hQ b (List.getElem?_mem hb) hQb
    · exact Nat.lt_of_lt_of_le hix hjx
  · exfalso
    rw [List.getElem?_append_right hix] at ha
    exact hP a (List.getElem?_mem ha) hPa

/-- `MAX_POLL_INTERVAL = 60  # seconds`. -/
def MAX_POLL_INTERVAL : Nat := 60

/-- The state of a `Jitter` instance: cumulative time passed, the configured
minimum wait and the previous backoff interval. -/
structure Jitter where
  timePassed : Nat
  minWait : Nat
  previousInterval : Nat
  deriving DecidableEq, Repr

/-- `Jitter.__init__(min_wait=3)`. -/
def Jitter.init (minWait : Nat) : Jitter := ⟨0, minWait, 0⟩

/-- `Jitter.backoff()`: draws
`randint(0, min(MAX_POLL_INTERVAL, previous_interval * 3))` — passed here as
`r` — clamps it below to `min_wait`, sleeps that long, and returns the
cumulative time passed together with the updated state. -/
def Jitter.backoff (j : Jitter) (r : Nat) : Nat × Jitter :=
  let newInterval := max j.minWait r
  (j.timePassed + newInterval,
    ⟨j.timePassed + newInterval, j.minWait, newInterval⟩)

/-! ## `throttled_call` (resource_helper.py lines 93-124) -/

/-- The exception classes `throttled_call` distinguishes: `BotoServerError`
and `ClientError` (each carrying an error code), `WaiterError` (no code),
and any other exception. -/
inductive AwsErr where
  | botoServer (code : String)
  | clientError (code : String)
  | waiter
  | other
  deriving DecidableEq, Repr

/-- `error_code in ("Throttling", "RequestLimitExceeded")`. -/
def isThrottlingCode (code : String) : Bool :=
  code == "Throttling" || code == "RequestLimitExceeded"

/-- Which errors `throttled_call`'s loop is willing to retry: throttling-coded
`BotoServerError`/`ClientError`, and any `WaiterError`. -/
def retryableErr : AwsErr → Bool
  | .botoServer c => isThrottlingCode c
  | .clientError c => isThrottlingCode c
  | .waiter => true
  | .other => false

/-- The retry loop of `throttled_call`.  `attempts` are the successive
outcomes of calling `fun`, `ivals` the successive amounts `jitter.backoff()`
adds to the tracked time (each at least `min_wait = 3` in reality), `t` the
tracked `time_passed`.  `none` models running beyond the supplied outcomes;
a raised exception is returned together with the tracked time at the raise.
`max_time = 10 * 60` seconds. -/
def throttledGo {α : Type} :
    List (Except AwsErr α) → List Nat → Nat → Option (Except AwsErr α × Nat)
  | [], _, _ => none
  | .ok v :: _, _, t => some (.ok v, t)
  | .error (.botoServer c) :: rest, ivals, t =>
      if isThrottlingCode c = false ∨ t > 600 then some (.error (.botoServer c), t)
      else throttledGo rest ivals.tail (t + ivals.headD 3)
  | .error (.clientError c) :: rest, ivals, t =>
      if isThrottlingCode c = false ∨ t > 600 then some (.error (.clientError c), t)
      else throttledGo rest ivals.tail (t + ivals.headD 3)
  | .error .waiter :: rest, ivals, t =>
      if t > 600 then some (.error .waiter, t)
      else throttledGo rest ivals.tail (t + ivals.headD 3)
  | .error .other :: _, _, t => some (.error .other, t)

/-- `throttled_call(fun, *args, **kwargs)`. -/
def throttled_call {α : Type} (attempts : List (Except AwsErr α))
    (ivals : List Nat) : Option (Except AwsErr α × Nat) :=
  throttledGo attempts ivals 0

/-! ## `keep_trying` (resource_helper.py lines 68-91) -/

/-- The retry loop of `keep_trying(max_time, fun, ...)`: any exception is
caught; it is re-raised only when the tracked time already exceeds
`max_time`, otherwise the loop backs off and tries again. -/
def keepTryingGo {ε α : Type} (maxTime : Nat) :
    List (Except ε α) → List Nat → Nat → Option (Except ε α × Nat)
  | [], _, _ => none
  | .ok v :: _, _, t => some (.ok v, t)
  | .error e :: rest, ivals, t =>
      if t > maxTime then some (.error e, t)
      else keepTryingGo maxTime rest ivals.tail (t + ivals.headD 3)

/-- `keep_trying(max_time, fun, *args, **kwargs)`. -/
def keep_trying {ε α : Type} (maxTime : Nat) (attempts : List (Except ε α))
    (ivals : List Nat) : Option (Except ε α × Nat) :=
  keepTryingGo maxTime attempts ivals 0

/-! ## `wait_for_state_boto3` (resource_helper.py lines 153-189) -/

/-- One poll of the describe call: either a (transient, swallowed) exception
or the list of the described resources' state-field values. -/
inductive Poll where
  | err
  | ok (states : List String)
  deriving DecidableEq, Repr

/-- `all_good` after the per-resource loop: every state is the expected one
and none is `failed`/`terminated` (a `failed`/`terminated` state clears
`all_good` even when it equals `expected_state`). -/
def allGoodB (expected : String) (states : List String) : Bool :=
  states.all (fun st => !(st == "failed" || st == "terminated") && st == expected)

/-- `failure` after the per-resource loop: some state is
`failed`/`terminated`. -/
def anyFailureB (states : List String) : Bool :=
  states.any (fun st => st == "failed" || st == "terminated")

/-- How a call of `wait_for_state_boto3` ends: normal return, an
`ExpectedTimeoutError` (fail fast on a terminal state), or a
`TimeoutError`. -/
inductive WaitResult where
  | success
  | expectedTimeoutError
  | timeoutError
  deriving DecidableEq, Repr

/-- The polling loop of `wait_for_state_boto3`: per iteration, a describe
exception is swallowed; otherwise return on `all_good`, raise
`ExpectedTimeoutError` on `failure`; then raise `TimeoutError` once
`time_passed >= timeout`, else back off and poll again.  Returns the outcome
with the tracked time at that moment; `none` models running beyond the
supplied polls. -/
def waitGo (expected : String) (timeout : Nat) :
    List Poll → List Nat → Nat → Option (WaitResult × Nat)
  | [], _, _ => none
  | .ok states :: rest, ivals, t =>
      if allGoodB expected states then some (.success, t)
      else if anyFailureB states then some (.expectedTimeoutError, t)
      else if t ≥ timeout then some (.timeoutError, t)
      else waitGo expected timeout rest ivals.tail (t + ivals.headD 3)
  | .err :: rest, ivals, t =>
      if t ≥ timeout then some (.timeoutError, t)
      else waitGo expected timeout rest ivals.tail (t + ivals.headD 3)

/-- `wait_for_state_boto3(describe_func, params_dict, resources_name,
expected_state, state_attr, timeout)`. -/
def wait_for_state_boto3 (expected : String) (timeout : Nat)
    (polls : List Poll) (ivals : List Nat) : Option (WaitResult × Nat) :=
  waitGo expected timeout polls ivals 0

/-- C9: every backoff interval lies in
`[min_wait, min(MAX_POLL_INTERVAL, previous_interval * 3)]` clamped below to
`min_wait`; the first interval (previous interval 0) is exactly `min_wait`;
no interval ever exceeds `max(min_wait, 60)`; and the returned value is the
cumulative time including the new interval.  `r` is the `randint` draw,
which by construction is at most
`min(MAX_POLL_INTERVAL, previous_interval * 3)`. -/
theorem jitter_backoff_bounds (j : Jitter) (r : Nat)
    (hr : r ≤ min MAX_POLL_INTERVAL (j.previousInterval * 3)) :
    j.minWait ≤ (j.backoff r).2.previousInterval ∧
    (j.backoff r).2.previousInterval ≤
      max j.minWait (min MAX_POLL_INTERVAL (j.previousInterval * 3)) ∧
    (j.previousInterval = 0 → (j.backoff r).2.previousInterval = j.minWait) ∧
    (j.backoff r).2.previousInterval ≤ max j.minWait 60 ∧
    (j.backoff r).1 = j.timePassed + (j.backoff r).2.previousInterval := by
  have hb : (j.backoff r).2.previousInterval = max j.minWait r := rfl
  have hb1 : (j.backoff r).1 = j.timePassed + max j.minWait r := rfl
  rw [hb, hb1]
  unfold MAX_POLL_INTERVAL at hr ⊢
  omega

/-- Witness for C9: a fresh `Jitter()` (default `min_wait = 3`) whose first
draw is forced to 0 backs off exactly 3 seconds. -/
theorem jitter_backoff_bounds_witness :
    (Jitter.init 3).minWait ≤ ((Jitter.init 3).backoff 0).2.previousInterval ∧
    ((Jitter.init 3).backoff 0).2.previousInterval ≤
      max (Jitter.init 3).minWait
        (min MAX_POLL_INTERVAL ((Jitter.init 3).previousInterval * 3)) ∧
    ((Jitter.init 3).previousInterval = 0 →
      ((Jitter.init 3).backoff 0).2.previousInterval = (Jitter.init 3).minWait) ∧
    ((Jitter.init 3).backoff 0).2.previousInterval ≤ max (Jitter.init 3).minWait 60 ∧
    ((Jitter.init 3).backoff 0).1 =
      (Jitter.init 3).timePassed + ((Jitter.init 3).backoff 0).2.previousInterval :=
  jitter_backoff_bounds (Jitter.init 3) 0 (by decide)

/-- Any raise out of `throttled_call`'s loop is either a non-retryable error
(non-throttling `BotoServerError`/`ClientError`, or an exception class the
loop does not catch) or happens with the tracked time past the 10-minute
ceiling. -/
theorem throttledGo_error_classification {α : Type} :
    ∀ (attempts : List (Except AwsErr α)) (ivals : List Nat) (t : Nat)
      (e : AwsErr) (tr : Nat),
      throttledGo attempts ivals t = some (.error e, tr) →
      retryableErr e = false ∨ 600 < tr := by
  intro attempts
  induction attempts with
  | nil => intro ivals t e tr h; cases h
  | cons hd rest ih =>
      intro ivals t e tr h
      match hd with
      | .ok v => rw [throttledGo] at h; cases h
      | .error (.botoServer c) =>
          rw [throttledGo] at h
          by_cases hc : isThrottlingCode c = false ∨ t > 600
          · rw [if_pos hc] at h
            obtain ⟨he, ht⟩ := Prod.mk.injEq .. ▸ Option.some.inj h
            injection he with he2
            rcases hc with hc | hc
            · left; rw [← he2]; exact hc
            · right; omega
          · rw [if_neg hc] at h
            exact ih _ _ _ _ h
      | .error (.clientError c) =>
          rw [throttledGo] at h
          by_cases hc : isThrottlingCode c = false ∨ t > 600
          · rw [if_pos hc] at h
            obtain ⟨he, ht⟩ := Prod.mk.injEq .. ▸ Option.some.inj h
            injection he with he2
            rcases hc with hc | hc
            · left; rw [← he2]; exact hc
            · right; omega
          · rw [if_neg hc] at h
            exact ih _ _ _ _ h
      | .error .waiter =>
          rw [throttledGo] at h
          by_cases hc : t > 600
          · rw [if_pos hc] at h
            obtain ⟨he, ht⟩ := Prod.mk.injEq .. ▸ Option.some.inj h
            right; omega
          · rw [if_neg hc] at h
            exact ih _ _ _ _ h
      | .error .other =>
          rw [throttledGo] at h
          obtain ⟨he, ht⟩ := Prod.mk.injEq .. ▸ Option.some.inj h
          injection he with he2
          left; rw [← he2]; rfl

/-- C5, amended: `throttled_call` retries while the error is a
throttling-coded `BotoServerError`/`ClientError` *or any `WaiterError`* and
the tracked cumulative time has not exceeded the 10-minute ceiling; a
`BotoServerError`/`ClientError` whose code is not a throttling code, and any
exception class the loop does not catch, propagates immediately with no
retry and no added delay; a retryable error propagates only once the
tracked time exceeds the ceiling. -/
theorem throttled_call_policy {α : Type} (attempts : List (Except AwsErr α))
    (ivals : List Nat) :
    (∀ e tr, throttled_call attempts ivals = some (.error e, tr) →
        retryableErr e = false ∨ 600 < tr) ∧
    (∀ c rest t, isThrottlingCode c = false →
        throttledGo (α := α) (Except.error (AwsErr.botoServer c) :: rest) ivals t =
          some (.error (.botoServer c), t)) ∧
    (∀ c rest t, isThrottlingCode c = false →
        throttledGo (α := α) (Except.error (AwsErr.clientError c) :: rest) ivals t =
          some (.error (.clientError c), t)) ∧
    (∀ rest t, throttledGo (α := α) (Except.error AwsErr.other :: rest) ivals t =
        some (.error AwsErr.other, t)) := by
  refine ⟨fun e tr h => throttledGo_error_classification attempts ivals 0 e tr h,
    fun c rest t hc => ?_, fun c rest t hc => ?_, fun rest t => ?_⟩
  · rw [throttledGo, if_pos (Or.inl hc)]
  · rw [throttledGo, if_pos (Or.inl hc)]
  · rw [throttledGo]

/-- Witness for the amended C5: a `BotoServerError` with the non-throttling
code `AccessDenied` propagates from the very first attempt with no time
spent. -/
theorem throttled_call_policy_witness :
    isThrottlingCode "AccessDenied" = false ∧
    throttledGo (α := Nat) [Except.error (AwsErr.botoServer "AccessDenied")] [] 0 =
      some (.error (.botoServer "AccessDenied"), 0) :=
  ⟨by decide,
    (throttled_call_policy (α := Nat) [Except.error (AwsErr.botoServer "AccessDenied")]
      []).2.1 "AccessDenied" [] 0 (by decide)⟩

/-- Counterexample to C5 as stated: a `WaiterError` is a remote error that
carries no throttling code, yet `throttled_call` retries it — here the
second attempt succeeds, so the error never propagates. -/
theorem throttled_call_waiter_retried :
    throttled_call [Except.error AwsErr.waiter, Except.ok (0 : Nat)] [5] =
      some (Except.ok 0, 5) ∧
    retryableErr AwsErr.waiter = true ∧
    ∀ t, throttled_call [Except.error AwsErr.waiter, Except.ok (0 : Nat)] [5] ≠
      some (Except.error AwsErr.waiter, t) := by
  refine ⟨rfl, rfl, ?_⟩
  intro t h
  rw [(rfl : throttled_call [Except.error AwsErr.waiter, Except.ok (0 : Nat)] [5] =
    some (Except.ok 0, 5))] at h
  exact Except.noConfusion (congrArg Prod.fst (Option.some.inj h))

/-- A raise out of `keep_trying`'s loop only happens with the tracked time
past `max_time`, and re-raises an exception some attempt actually threw. -/
theorem keepTryingGo_error {ε α : Type} (maxTime : Nat) :
    ∀ (attempts : List (Except ε α)) (ivals : List Nat) (t : Nat) (e : ε) (tr : Nat),
      keepTryingGo maxTime attempts ivals t = some (.error e, tr) →
      maxTime < tr ∧ Except.error e ∈ attempts := by
  intro attempts
  induction attempts with
  | nil => intro ivals t e tr h; cases h
  | cons hd rest ih =>
      intro ivals t e tr h
      match hd with
      | .ok v => rw [keepTryingGo] at h; cases h
      | .error e2 =>
          rw [keepTryingGo] at h
          by_cases hc : t > maxTime
          · rw [if_pos hc] at h
            obtain ⟨he, ht⟩ := Prod.mk.injEq .. ▸ Option.some.inj h
            injection he with he2
            refine ⟨by omega, ?_⟩
            rw [← he2]
            exact List.mem_cons_self _ _
          · rw [if_neg hc] at h
            obtain ⟨h1, h2⟩ := ih _ _ _ _ h
            exact ⟨h1, List.mem_cons_of_mem _ h2⟩

/-- A normal return of `keep_trying`'s loop returns the value of the first
successful attempt: every earlier attempt threw. -/
theorem keepTryingGo_ok {ε α : Type} (maxTime : Nat) :
    ∀ (attempts : List (Except ε α)) (ivals : List Nat) (t : Nat) (v : α) (tr : Nat),
      keepTryingGo maxTime attempts ivals t = some (.ok v, tr) →
      ∃ k : Nat, attempts[k]? = some (Except.ok v) ∧
        ∀ i < k, ∃ e : ε, attempts[i]? = some (Except.error e : Except ε α) := by
  intro attempts
  induction attempts with
  | nil => intro ivals t v tr h; cases h
  | cons hd rest ih =>
      intro ivals t v tr h
      match hd with
      | .ok v2 =>
          rw [keepTryingGo] at h
          obtain ⟨he, ht⟩ := Prod.mk.injEq .. ▸ Option.some.inj h
          injection he with he2
          refine ⟨0, ?_, fun i hi => absurd hi (Nat.not_lt_zero i)⟩
          rw [he2]
          simp
      | .error e2 =>
          rw [keepTryingGo] at h
          by_cases hc : t > maxTime
          · rw [if_pos hc] at h
            exact Except.noConfusion (congrArg Prod.fst (Option.some.inj h))
          · rw [if_neg hc] at h
            obtain ⟨k, hk, hpre⟩ := ih _ _ _ _ h
            refine ⟨k + 1, by simpa using hk, fun i hi => ?_⟩
            match i with
            | 0 => exact ⟨e2, by simp⟩
            | i + 1 => simpa using hpre i (Nat.lt_of_succ_lt_succ hi)

/-- C10: `keep_trying` retries `fun` after an exception of any type, not
only throttling errors; an exception is re-raised only once the tracked
cumulative backoff time exceeds `max_time` (and is one an attempt actually
threw); any attempt that has not yet exceeded the budget is retried after a
backoff, whatever the exception; and a normal return is the value of the
first successful attempt. -/
theorem keep_trying_spec {ε α : Type} (maxTime : Nat)
    (attempts : List (Except ε α)) (ivals : List Nat) :
    (∀ e tr, keep_trying maxTime attempts ivals = some (.error e, tr) →
        maxTime < tr ∧ Except.error e ∈ attempts) ∧
    (∀ (e : ε) (rest : List (Except ε α)) (t : Nat), t ≤ maxTime →
        keepTryingGo maxTime (Except.error e :: rest) ivals t =
          keepTryingGo maxTime rest ivals.tail (t + ivals.headD 3)) ∧
    (∀ v tr, keep_trying maxTime attempts ivals = some (.ok v, tr) →
        ∃ k : Nat, attempts[k]? = some (Except.ok v) ∧
          ∀ i < k, ∃ e : ε, attempts[i]? = some (Except.error e : Except ε α)) := by
  refine ⟨fun e tr h => keepTryingGo_error maxTime attempts ivals 0 e tr h,
    fun e rest t ht => ?_,
    fun v tr h => keepTryingGo_ok maxTime attempts ivals 0 v tr h⟩
  rw [keepTryingGo, if_neg (by omega)]

/-- Witness for C10: with a 60-second budget, an arbitrary (non-throttling)
exception on the first attempt is retried rather than raised, and the loop
continues into the remaining attempts after one backoff. -/
theorem keep_trying_spec_witness :
    (0 : Nat) ≤ 60 ∧
    keepTryingGo (ε := String) (α := Nat) 60
        [Except.error "boom", Except.ok 1] [4] 0 =
      keepTryingGo 60 [Except.ok 1] [] (0 + 4) :=
  ⟨by decide,
    (keep_trying_spec (ε := String) (α := Nat) 60 [Except.error "boom", Except.ok 1]
      [4]).2.1 "boom" [Except.ok 1] 0 (by decide)⟩

theorem allGoodB_eq_false_of_anyFailureB {expected : String} {states : List String}
    (h : anyFailureB states = true) : allGoodB expected states = false := by
  obtain ⟨st, hmem, hst⟩ := List.any_eq_true.mp h
  cases hb : allGoodB expected states with
  | false => rfl
  | true =>
      exfalso
      have hall := List.all_eq_true.mp hb st hmem
      rw [hst] at hall
      simp at hall

/-- `wait_for_state_boto3` returns normally only if some poll observed every
resource in the expected state with none `failed`/`terminated`. -/
theorem waitGo_success {expected : String} {timeout : Nat} :
    ∀ (polls : List Poll) (ivals : List Nat) (t tr : Nat),
      waitGo expected timeout polls ivals t = some (.success, tr) →
      ∃ states, Poll.ok states ∈ polls ∧ allGoodB expected states = true := by
  intro polls
  induction polls with
  | nil => intro _ _ _ h; cases h
  | cons hd rest ih =>
      intro ivals t tr h
      match hd with
      | .ok states =>
          rw [waitGo] at h
          by_cases h1 : allGoodB expected states = true
          · exact ⟨states, List.mem_cons_self _ _, h1⟩
          · rw [if_neg h1] at h
            by_cases h2 : anyFailureB states = true
            · rw [if_pos h2] at h
              exact WaitResult.noConfusion (congrArg Prod.fst (Option.some.inj h))
            · rw [if_neg h2] at h
              by_cases h3 : t ≥ timeout
              · rw [if_pos h3] at h
                exact WaitResult.noConfusion (congrArg Prod.fst (Option.some.inj h))
              · rw [if_neg h3] at h
                obtain ⟨states2, hm, hg⟩ := ih _ _ _ h
                exact ⟨states2, List.mem_cons_of_mem _ hm, hg⟩
      | .err =>
          rw [waitGo] at h
          by_cases h3 : t ≥ timeout
          · rw [if_pos h3] at h
            exact WaitResult.noConfusion (congrArg Prod.fst (Option.some.inj h))
          · rw [if_neg h3] at h
            obtain ⟨states2, hm, hg⟩ := ih _ _ _ h
            exact ⟨states2, List.mem_cons_of_mem _ hm, hg⟩

/-- C6, amended: `wait_for_state_boto3` returns successfully exactly when a
poll observes every resource's state equal to the expected value *and* no
resource in the `failed`/`terminated` states; a poll observing any
`failed`/`terminated` resource raises `ExpectedTimeoutError` immediately —
before the timeout check, with no time spent, even when the terminal state
equals the expected one — and that error kind is distinct from the
`TimeoutError` raised once the deadline has elapsed. -/
theorem wait_for_state_boto3_spec (expected : String) (timeout : Nat)
    (polls : List Poll) (ivals : List Nat) :
    (∀ tr, wait_for_state_boto3 expected timeout polls ivals = some (.success, tr) →
        ∃ states, Poll.ok states ∈ polls ∧ allGoodB expected states = true) ∧
    (∀ states rest, allGoodB expected states = true →
        waitGo expected timeout (Poll.ok states :: rest) ivals 0 =
          some (.success, 0)) ∧
    (∀ states rest, anyFailureB states = true →
        waitGo expected timeout (Poll.ok states :: rest) ivals 0 =
          some (.expectedTimeoutError, 0)) ∧
    WaitResult.expectedTimeoutError ≠ WaitResult.timeoutError := by
  refine ⟨fun tr h => waitGo_success polls ivals 0 tr h,
    fun states rest hg => ?_, fun states rest hf => ?_, by decide⟩
  · rw [waitGo, if_pos hg]
  · rw [waitGo, if_neg (by simp [allGoodB_eq_false_of_anyFailureB hf]), if_pos hf]

/-- Witness for the amended C6: a `failed` resource raises
`ExpectedTimeoutError` at once, even with a zero timeout (the fail-fast
check precedes the deadline check). -/
theorem wait_for_state_boto3_spec_witness :
    anyFailureB ["failed"] = true ∧
    waitGo "available" 0 [Poll.ok ["failed"]] [] 0 =
      some (WaitResult.expectedTimeoutError, 0) :=
  ⟨by decide,
    (wait_for_state_boto3_spec "available" 0 [Poll.ok ["failed"]] []).2.2.1
      ["failed"] [] (by decide)⟩

/-- Counterexample to C6 as stated: waiting for the expected state
`terminated` when every described resource is already `terminated` raises
`ExpectedTimeoutError` instead of returning successfully, although every
resource's state field equals the expected value. -/
theorem wait_for_state_terminated_counterexample :
    wait_for_state_boto3 "terminated" 900 [Poll.ok ["terminated"]] [] =
      some (WaitResult.expectedTimeoutError, 0) ∧
    (["terminated"].all (fun st => st == "terminated")) = true := by
  exact ⟨rfl, rfl⟩

/-! ## `DiscoVPC.parse_peering_connection_line` (disco_vpc.py lines 811-873)
and `DiscoVPC.parse_peerings_config` (lines 875-915)

Python's `str.split(sep)` and `str.strip()` are embedded as structural
recursion over the character list of the string (the separators used by the
source are the single characters `' '`, `'/'` and `':'`). -/

/-- `str.split(sep)` for a single-character separator, over the character
list: splitting the empty string yields `[""]`, as in Python. -/
def splitChars (sep : Char) : List Char → List (List Char)
  | [] => [[]]
  | c :: rest =>
      match splitChars sep rest with
      | [] => [[]]
      | cur :: done => if c = sep then [] :: cur :: done else (c :: cur) :: done

/-- `str.split(sep)` for a single-character separator. -/
def splitOnChar (sep : Char) (s : String) : List String :=
  (splitChars sep s.data).map (fun l => ⟨l⟩)

/-- `str.strip()` (whitespace here meaning the space character, the only one
occurring in the configuration values at issue). -/
def stripStr (s : String) : String :=
  ⟨((s.data.dropWhile (fun c => c = ' ')).reverse.dropWhile (fun c => c = ' ')).reverse⟩

/-- `get_vpc_name(endpoint)`: the name from `name[:type]/metanetwork`. -/
def getVpcName (endpoint : String) : String :=
  stripStr (((splitOnChar ':' ((splitOnChar '/' endpoint).headD "")).headD ""))

/-- `get_metanetwork(endpoint)`: the metanetwork from
`name[:type]/metanetwork`. -/
def getMetanetwork (endpoint : String) : String :=
  stripStr (((splitOnChar '/' endpoint)[1]?).getD "")

/-- What resolving a peering line needs to know about a live environment:
its remote VPC id, and whether the environment's configuration yields any
metanetworks (an empty `networks` dict makes the parser raise). -/
structure EnvInfo where
  vpcId : String
  hasNetworks : Bool
  deriving DecidableEq, Repr

/-- The dictionary `parse_peering_connection_line` returns for a line whose
environments are all live: `vpc_map` (name to the fetched VPC, kept here as
its id) and `vpc_metanetwork_map` (name to metanetwork). -/
structure PeeringConfigEntry where
  vpcMap : List (String × String)
  vpcMetanetworkMap : List (String × String)
  deriving DecidableEq, Repr

/-- `DiscoVPC.parse_peering_connection_line(line, vpc_conn)`: looks up every
distinct environment name of the line against the live environments
(`live`); when any is missing the line is skipped by returning the empty
dict (`none` here); when one is live but has no metanetworks a
`RuntimeError` is raised; otherwise the two maps are returned. -/
def parse_peering_connection_line (line : String)
    (live : String → Option EnvInfo) : Except String (Option PeeringConfigEntry) :=
  let endpoints := splitOnChar ' ' line
  let names := (endpoints.map getVpcName).dedup
  let missing := names.filter (fun n => (live n).isNone)
  if missing.isEmpty then
    if names.any (fun n => ((live n).map EnvInfo.hasNetworks).getD true = false) then
      .error "No metanetworks found for vpc"
    else
      .ok (some
        { vpcMap := names.map (fun n => (n, ((live n).map EnvInfo.vpcId).getD ""))
          vpcMetanetworkMap := endpoints.map (fun e => (getVpcName e, getMetanetwork e)) })
  else .ok none

/-- The second loop of `parse_peerings_config`: resolve each line, skip
lines that did not produce at least two live VPCs, skip lines not involving
the requested VPC id (when one is given), keep the rest keyed by the
line. -/
def peeringsLoop (live : String → Option EnvInfo) (vpcId : Option String) :
    List String → Except String (List (String × PeeringConfigEntry))
  | [] => .ok []
  | line :: rest =>
      match parse_peering_connection_line line live with
      | .error e => .error e
      | .ok none => peeringsLoop live vpcId rest
      | .ok (some cfg) =>
          if (cfg.vpcMap.map Prod.snd).length < 2 then peeringsLoop live vpcId rest
          else
            match vpcId with
            | some vid =>
                if vid ∈ cfg.vpcMap.map Prod.snd then
                  (peeringsLoop live vpcId rest).map (fun l => (line, cfg) :: l)
                else peeringsLoop live vpcId rest
            | none => (peeringsLoop live vpcId rest).map (fun l => (line, cfg) :: l)

/-- `DiscoVPC.parse_peerings_config(vpc_id)`, over the already-extracted
`connection_*` values (`lines`): first every line is checked to consist of
exactly two space-delimited endpoints (`VPCPeeringSyntaxError` otherwise),
then each line is resolved. -/
def parse_peerings_config (lines : List String)
    (live : String → Option EnvInfo) (vpcId : Option String) :
    Except String (List (String × PeeringConfigEntry)) :=
  if lines.any (fun l => ((splitOnChar ' ' l).map stripStr).length != 2) then
    .error "Syntax error in vpc peering connection"
  else peeringsLoop live vpcId lines

/-- A line that resolves to the empty dict contributes nothing and leaves
the rest of the loop unchanged. -/
theorem peeringsLoop_skip (live : String → Option EnvInfo) (vpcId : Option String)
    (line : String) (hskip : parse_peering_connection_line line live = .ok none) :
    ∀ (pre post : List String),
      peeringsLoop live vpcId (pre ++ line :: post) =
        peeringsLoop live vpcId (pre ++ post) := by
  intro pre
  induction pre with
  | nil =>
      intro post
      simp only [List.nil_append]
      rw [peeringsLoop, hskip]
  | cons p pre' ih =>
      intro post
      simp only [List.cons_append, peeringsLoop]
      cases hp : parse_peering_connection_line p live with
      | error e => rfl
      | ok cfgOpt =>
          cases cfgOpt with
          | none => exact ih post
          | some cfg =>
              have ih' := ih post
              simp only [List.append_eq] at ih' ⊢
              rw [ih']

/-- C8: if a named environment of one syntactically valid configuration line
is not currently live, that single line is skipped — the whole resolution
returns exactly what it returns without the line: no error from that line,
no entry for it, and the remaining lines resolved unchanged. -/
theorem parse_peerings_config_skips_dead_line (pre post : List String)
    (line : String) (live : String → Option EnvInfo) (vpcId : Option String)
    (hsyn : ((splitOnChar ' ' line).map stripStr).length = 2)
    (hmiss : ∃ ep ∈ splitOnChar ' ' line, live (getVpcName ep) = none) :
    parse_peerings_config (pre ++ line :: post) live vpcId =
      parse_peerings_config (pre ++ post) live vpcId := by
  have hskip : parse_peering_connection_line line live = .ok none := by
    obtain ⟨ep, hep, hlive⟩ := hmiss
    have hname : getVpcName ep ∈ ((splitOnChar ' ' line).map getVpcName).dedup :=
      List.mem_dedup.mpr (List.mem_map_of_mem _ hep)
    have hmemf : getVpcName ep ∈
        (((splitOnChar ' ' line).map getVpcName).dedup).filter
          (fun n => (live n).isNone) :=
      List.mem_filter.mpr ⟨hname, by rw [hlive]; rfl⟩
    have hne : (((splitOnChar ' ' line).map getVpcName).dedup).filter
        (fun n => (live n).isNone) ≠ [] := by
      intro hnil
      rw [hnil] at hmemf
      cases hmemf
    rw [parse_peering_connection_line]
    rw [if_neg (fun hcontra => hne (List.isEmpty_iff.mp hcontra))]
  have hany : (pre ++ line :: post).any
        (fun l => ((splitOnChar ' ' l).map stripStr).length != 2) =
      (pre ++ post).any
        (fun l => ((splitOnChar ' ' l).map stripStr).length != 2) := by
    have hsyn2 : (splitOnChar ' ' line).length = 2 := by
      rw [List.length_map] at hsyn
      exact hsyn
    simp [List.any_append, List.any_cons, hsyn2]
  rw [parse_peerings_config, parse_peerings_config, hany]
  by_cases hb : (pre ++ post).any
      (fun l => ((splitOnChar ' ' l).map stripStr).length != 2) = true
  · rw [if_pos hb, if_pos hb]
  · rw [if_neg hb, if_neg hb]
    exact peeringsLoop_skip live vpcId line hskip pre post

/-- Witness for C8: the line `"dead/intranet alive/intranet"`, whose first
environment is not live, is skipped and resolution with it equals
resolution without it. -/
theorem parse_peerings_config_skips_dead_line_witness :
    parse_peerings_config ["dead/intranet alive/intranet"]
      (fun n => if n = "alive" then some ⟨"vpc-1", true⟩ else none) none =
    parse_peerings_config []
      (fun n => if n = "alive" then some ⟨"vpc-1", true⟩ else none) none :=
  parse_peerings_config_skips_dead_line [] [] "dead/intranet alive/intranet"
    (fun n => if n = "alive" then some ⟨"vpc-1", true⟩ else none) none
    (by decide) ⟨"dead/intranet", by decide, by decide⟩

end Asiaq
